import Mathlib

/-!
Verification of the feedback ledger and insight aggregator (`ReflexionEngine`
in `reflexion.py`).  The Python module keeps a list of feedback records in
memory, mirrors it to a JSON file on every write, and derives an accuracy
rate, common error-pattern labels and canned improvement suggestions from the
accumulated records.

The embedding below is a direct translation:

* `FeedbackRecord` models the record dict built by `record_feedback`; the
  `analysis_result` dict is modelled by `AnalysisResult`, whose fields are
  `Option`-valued because the Python code accesses them with `dict.get` and a
  default (`confidence_score` defaults to `0`, the nested
  `completeness_score` defaults to `1.0`, `suspicious_elements` to `[]`).
* The durable store is a `Store`: absent file, unparseable file, or a parsed
  JSON document (`JValue`).  `_save_feedback_data` serialises the whole list
  (`encodeRecords`); `_load_feedback_data` re-reads it on construction.
* `collections.Counter` together with `most_common(3)` is modelled by
  `tallyCounts` (distinct elements in first-encounter order, each with its
  occurrence count) followed by a stable descending sort on the counts
  (`sortByCountDesc`), matching CPython's insertion-ordered dict and the
  stable, tie-preserving behaviour of `heapq.nlargest`.
-/

namespace Reflexion

/-- Model of the `data_completeness` sub-dict of an analysis result: the code
only ever reads `completeness_score` from it (defaulting to `1.0`). -/
structure DataCompleteness where
  completeness_score : Option ℚ
deriving Repr, DecidableEq

/-- Model of the `analysis_result` dict, restricted to the three fields the
engine reads.  `none` models an absent key. -/
structure AnalysisResult where
  confidence_score : Option ℚ
  data_completeness : Option DataCompleteness
  suspicious_elements : Option (List String)
deriving Repr, DecidableEq

/-- The feedback record dict built by `record_feedback`:
`timestamp`, `user_feedback`, `analysis_result`, `image_path`,
`improvement_notes`. -/
structure FeedbackRecord where
  timestamp : String
  user_feedback : String
  analysis_result : AnalysisResult
  image_path : Option String
  improvement_notes : String
deriving Repr, DecidableEq

/-- `_generate_improvement_notes`: a fixed string selected solely by
`user_feedback` (the `analysis_result` argument is unused, as in the source). -/
def generateImprovementNotes (_analysis : AnalysisResult) (user_feedback : String) : String :=
  if user_feedback = "correct" then
    "정확한 분석. 현재 모델 파라미터 유지."
  else if user_feedback = "incorrect" then
    "부정확한 분석. 모델 파라미터 조정 필요."
  else
    "불확실한 피드백. 추가 데이터 수집 필요."

/-- The label appended when `analysis.get('confidence_score', 0) > 0.8`. -/
def highConfidenceWrongLabel : String := "높은 신뢰도로 틀린 판정"

/-- The label appended when
`analysis.get('data_completeness', {}).get('completeness_score', 1.0) > 0.8`. -/
def completenessOverestimatedLabel : String := "정보 완성도 높게 평가했지만 틀림"

/-- The label appended when `analysis.get('suspicious_elements', [])` is empty. -/
def missedSuspiciousLabel : String := "의심 요소를 놓침"

/-- The loop body of `_analyze_common_errors`: the labels one record appends
to `error_patterns`, in the order of the three `if` statements. -/
def recordErrorPatterns (record : FeedbackRecord) : List String :=
  let analysis := record.analysis_result
  let fromConfidence :=
    if analysis.confidence_score.getD 0 > (0.8 : ℚ) then [highConfidenceWrongLabel] else []
  let completeness := analysis.data_completeness.getD ⟨none⟩
  let fromCompleteness :=
    if completeness.completeness_score.getD 1 > (0.8 : ℚ) then [completenessOverestimatedLabel] else []
  let suspicious := analysis.suspicious_elements.getD []
  let fromSuspicious :=
    if suspicious = [] then [missedSuspiciousLabel] else []
  fromConfidence ++ fromCompleteness ++ fromSuspicious

/-- Distinct elements of a list in first-encounter order (the key order of a
`collections.Counter` built by iterating the list); `seen` accumulates the
keys already emitted. -/
def distinctAux (seen : List String) : List String → List String
  | [] => []
  | s :: rest =>
    if s ∈ seen then distinctAux seen rest
    else s :: distinctAux (s :: seen) rest

/-- Model of `collections.Counter(ps)`: each distinct element in
first-encounter order, paired with its occurrence count. -/
def tallyCounts (ps : List String) : List (String × Nat) :=
  (distinctAux [] ps).map (fun s => (s, ps.count s))

/-- Stable insertion of a pair into a list sorted by descending count: the
pair moves past an element only when that element's count is strictly
larger, so earlier-encountered keys stay ahead of later ones on ties. -/
def insertByCountDesc (p : String × Nat) : List (String × Nat) → List (String × Nat)
  | [] => [p]
  | q :: qs => if q.2 > p.2 then q :: insertByCountDesc p qs else p :: q :: qs

/-- Stable sort by descending count, modelling the ordering of
`Counter.most_common` (descending frequency, ties in insertion order). -/
def sortByCountDesc : List (String × Nat) → List (String × Nat)
  | [] => []
  | p :: ps => insertByCountDesc p (sortByCountDesc ps)

/-- `Counter(ps).most_common(3)` keys: sort the tally by descending count
(stable) and keep the first three keys. -/
def mostCommonThree (ps : List String) : List String :=
  ((sortByCountDesc (tallyCounts ps)).take 3).map Prod.fst

/-- `_analyze_common_errors`: collect the per-record labels over the given
(already filtered) incorrect records, then return the up-to-3 most common. -/
def analyzeCommonErrors (incorrect_records : List FeedbackRecord) : List String :=
  mostCommonThree (incorrect_records.flatMap recordErrorPatterns)

/-- Suggestion emitted when `accuracy_rate < 0.7`. -/
def overallImprovementSuggestion : String := "전체적인 모델 성능 개선 필요"

/-- Suggestion emitted when the high-confidence-wrong label is present. -/
def confidenceSuggestion : String := "신뢰도 계산 알고리즘 개선"

/-- Suggestion emitted when the completeness-overestimated label is present. -/
def completenessSuggestion : String := "데이터 완성도 분석 로직 개선"

/-- Suggestion emitted when the missed-suspicious-elements label is present. -/
def suspiciousSuggestion : String := "의심 요소 탐지 알고리즘 강화"

/-- Suggestion emitted when no other condition fires. -/
def monitoringSuggestion : String := "현재 성능이 양호함. 지속적인 모니터링 권장"

/-- `_generate_improvement_suggestions`: four fixed checks in a fixed order,
then the monitoring fallback when none fired. -/
def generateImprovementSuggestions (accuracy_rate : ℚ) (common_errors : List String) : List String :=
  let s1 := if accuracy_rate < (0.7 : ℚ) then [overallImprovementSuggestion] else []
  let s2 := if highConfidenceWrongLabel ∈ common_errors then [confidenceSuggestion] else []
  let s3 := if completenessOverestimatedLabel ∈ common_errors then [completenessSuggestion] else []
  let s4 := if missedSuspiciousLabel ∈ common_errors then [suspiciousSuggestion] else []
  let suggestions := s1 ++ s2 ++ s3 ++ s4
  if suggestions = [] then [monitoringSuggestion] else suggestions

/-- The dict returned by `get_learning_insights`.  The empty-ledger early
return has no `recent_feedback` key, which is modelled by
`recent_feedback = none`. -/
structure InsightSummary where
  total_feedback : Nat
  accuracy_rate : ℚ
  common_errors : List String
  improvement_suggestions : List String
  recent_feedback : Option (List FeedbackRecord)
deriving Repr, DecidableEq

/-- `get_learning_insights`, as a function of the in-memory record list. -/
def getLearningInsights (feedback_data : List FeedbackRecord) : InsightSummary :=
  if feedback_data = [] then
    { total_feedback := 0
      accuracy_rate := 0
      common_errors := []
      improvement_suggestions := []
      recent_feedback := none }
  else
    let correct_count := (feedback_data.filter (fun r => r.user_feedback = "correct")).length
    let total_count := feedback_data.length
    let accuracy_rate : ℚ := if total_count > 0 then (correct_count : ℚ) / (total_count : ℚ) else 0
    let incorrect_records := feedback_data.filter (fun r => r.user_feedback = "incorrect")
    let common_errors := analyzeCommonErrors incorrect_records
    let improvement_suggestions := generateImprovementSuggestions accuracy_rate common_errors
    { total_feedback := total_count
      accuracy_rate := accuracy_rate
      common_errors := common_errors
      improvement_suggestions := improvement_suggestions
      recent_feedback :=
        some (if feedback_data.length ≥ 5 then
                feedback_data.drop (feedback_data.length - 5)
              else feedback_data) }

/-- A parsed JSON document, as produced by `json.load` / consumed by
`json.dump` for the values this engine stores. -/
inductive JValue where
  | null
  | num (q : ℚ)
  | str (s : String)
  | arr (items : List JValue)
  | obj (fields : List (String × JValue))
deriving Repr

/-- Dict field lookup inside a parsed JSON object. -/
def jLookup (fields : List (String × JValue)) (key : String) : Option JValue :=
  match fields.find? (fun p => p.1 = key) with
  | some p => some p.2
  | none => none

/-- Serialisation of a `data_completeness` sub-dict: the key is present
exactly when the score is. -/
def encodeDataCompleteness (dc : DataCompleteness) : JValue :=
  JValue.obj (match dc.completeness_score with
    | some q => [("completeness_score", JValue.num q)]
    | none => [])

/-- Serialisation of an `analysis_result` dict: each key present exactly when
the field is. -/
def encodeAnalysisResult (a : AnalysisResult) : JValue :=
  JValue.obj
    ((match a.confidence_score with
      | some q => [("confidence_score", JValue.num q)]
      | none => []) ++
     (match a.data_completeness with
      | some dc => [("data_completeness", encodeDataCompleteness dc)]
      | none => []) ++
     (match a.suspicious_elements with
      | some xs => [("suspicious_elements", JValue.arr (xs.map JValue.str))]
      | none => []))

/-- Serialisation of one feedback record: the five keys written by
`record_feedback`, with `None` for the image path written as JSON `null`. -/
def encodeFeedbackRecord (r : FeedbackRecord) : JValue :=
  JValue.obj
    [("timestamp", JValue.str r.timestamp),
     ("user_feedback", JValue.str r.user_feedback),
     ("analysis_result", encodeAnalysisResult r.analysis_result),
     ("image_path", match r.image_path with
       | some s => JValue.str s
       | none => JValue.null),
     ("improvement_notes", JValue.str r.improvement_notes)]

/-- `json.dump(self.feedback_data, ...)`: the whole ledger as a JSON array. -/
def encodeRecords (rs : List FeedbackRecord) : JValue :=
  JValue.arr (rs.map encodeFeedbackRecord)

/-- Reads back a JSON array of strings. -/
def decodeStrings : List JValue → Option (List String)
  | [] => some []
  | JValue.str s :: rest => (decodeStrings rest).map (fun xs => s :: xs)
  | _ :: _ => none

/-- Reads back a `data_completeness` sub-dict. -/
def decodeDataCompleteness : JValue → Option DataCompleteness
  | JValue.obj fields =>
    match jLookup fields "completeness_score" with
    | none => some ⟨none⟩
    | some (JValue.num q) => some ⟨some q⟩
    | some _ => none
  | _ => none

/-- Reads back an `analysis_result` dict. -/
def decodeAnalysisResult : JValue → Option AnalysisResult
  | JValue.obj fields =>
    let conf : Option (Option ℚ) :=
      match jLookup fields "confidence_score" with
      | none => some none
      | some (JValue.num q) => some (some q)
      | some _ => none
    let dc : Option (Option DataCompleteness) :=
      match jLookup fields "data_completeness" with
      | none => some none
      | some v => (decodeDataCompleteness v).map some
    let susp : Option (Option (List String)) :=
      match jLookup fields "suspicious_elements" with
      | none => some none
      | some (JValue.arr items) => (decodeStrings items).map some
      | some _ => none
    match conf, dc, susp with
    | some c, some d, some s => some ⟨c, d, s⟩
    | _, _, _ => none
  | _ => none

/-- Reads back one feedback record from its JSON object. -/
def decodeFeedbackRecord : JValue → Option FeedbackRecord
  | JValue.obj fields =>
    match jLookup fields "timestamp", jLookup fields "user_feedback",
          (jLookup fields "analysis_result").bind decodeAnalysisResult,
          jLookup fields "image_path", jLookup fields "improvement_notes" with
    | some (JValue.str ts), some (JValue.str fb), some a, some img, some (JValue.str notes) =>
      match img with
      | JValue.null => some ⟨ts, fb, a, none, notes⟩
      | JValue.str s => some ⟨ts, fb, a, some s, notes⟩
      | _ => none
    | _, _, _, _, _ => none
  | _ => none

/-- Reads back a list of feedback records. -/
def decodeRecordList : List JValue → Option (List FeedbackRecord)
  | [] => some []
  | v :: rest =>
    match decodeFeedbackRecord v, decodeRecordList rest with
    | some r, some rs => some (r :: rs)
    | _, _ => none

/-- Reads back the whole ledger from a parsed JSON document. -/
def decodeRecords : JValue → Option (List FeedbackRecord)
  | JValue.arr items => decodeRecordList items
  | _ => none

/-- The backing file: absent (`os.path.exists` is false), present but raising
on read/parse (caught by the bare `except`), or a parsed JSON document. -/
inductive Store where
  | absent
  | corrupt
  | content (v : JValue)

/-- `_load_feedback_data`: absent file or load exception yields the empty
list; otherwise the stored document is read back as the record list. -/
def loadFeedbackData : Store → List FeedbackRecord
  | Store.absent => []
  | Store.corrupt => []
  | Store.content v => (decodeRecords v).getD []

/-- The engine state: the in-memory `self.feedback_data` plus the backing
file's contents. -/
structure EngineState where
  feedback_data : List FeedbackRecord
  store : Store

/-- The constructor `ReflexionEngine.__init__`: load the file (never
raising) into `self.feedback_data`; the file itself is untouched. -/
def initEngine (store : Store) : EngineState :=
  { feedback_data := loadFeedbackData store, store := store }

/-- `_save_feedback_data`: overwrite the file with the whole ledger. -/
def saveFeedbackData (st : EngineState) : EngineState :=
  { st with store := Store.content (encodeRecords st.feedback_data) }

/-- `record_feedback`: build the record (the clock reading `datetime.now()`
is passed in as `ts`), append it, persist the whole ledger, return it. -/
def recordFeedback (st : EngineState) (ts : String) (analysis_result : AnalysisResult)
    (user_feedback : String) (image_path : Option String) :
    EngineState × FeedbackRecord :=
  let feedback_record : FeedbackRecord :=
    { timestamp := ts
      user_feedback := user_feedback
      analysis_result := analysis_result
      image_path := image_path
      improvement_notes := generateImprovementNotes analysis_result user_feedback }
  let newData := st.feedback_data ++ [feedback_record]
  (saveFeedbackData { st with feedback_data := newData }, feedback_record)

/-- The dict returned by `get_feedback_statistics` when the ledger is
non-empty. -/
structure StatisticsSummary where
  feedback_distribution : List (String × Nat)
  daily_feedback_trend : List (String × Nat)
  confidence_mean : ℚ
  confidence_min : ℚ
  confidence_max : ℚ
deriving Repr, DecidableEq

/-- `min(xs)` guarded by `if xs else 0`, as in the source. -/
def listMin : List ℚ → ℚ
  | [] => 0
  | x :: xs => xs.foldl min x

/-- `max(xs)` guarded by `if xs else 0`, as in the source. -/
def listMax : List ℚ → ℚ
  | [] => 0
  | x :: xs => xs.foldl max x

/-- `get_feedback_statistics`: `{}` (modelled as `none`) on an empty ledger;
otherwise the feedback-value counts, the per-date counts (the date of an
ISO-8601 timestamp is its first 10 characters) and the mean/min/max of the
confidence scores (missing scores read as 0). -/
def getFeedbackStatistics (feedback_data : List FeedbackRecord) : Option StatisticsSummary :=
  if feedback_data = [] then none
  else
    let confidence_scores :=
      feedback_data.map (fun r => r.analysis_result.confidence_score.getD 0)
    some
      { feedback_distribution := tallyCounts (feedback_data.map (fun r => r.user_feedback))
        daily_feedback_trend := tallyCounts (feedback_data.map (fun r => r.timestamp.take 10))
        confidence_mean :=
          if confidence_scores ≠ [] then confidence_scores.sum / (confidence_scores.length : ℚ)
          else 0
        confidence_min := listMin confidence_scores
        confidence_max := listMax confidence_scores }

/-- `get_learning_insights` as an engine call: it only reads
`self.feedback_data`, so the state it leaves behind is the state it was
called in. -/
def runInsightsQuery (st : EngineState) : EngineState × InsightSummary :=
  (st, getLearningInsights st.feedback_data)

/-- `get_feedback_statistics` as an engine call: it builds a fresh data frame
from `self.feedback_data` and writes nothing, so the state is unchanged. -/
def runStatsQuery (st : EngineState) : EngineState × Option StatisticsSummary :=
  (st, getFeedbackStatistics st.feedback_data)

/-- One call to the engine's public interface. -/
inductive Op where
  | record (ts : String) (analysis_result : AnalysisResult)
      (user_feedback : String) (image_path : Option String)
  | insights
  | stats

/-- Whether an operation is a `record_feedback` call. -/
def Op.isRecord : Op → Bool
  | Op.record _ _ _ _ => true
  | _ => false

/-- The state transition of one engine call. -/
def applyOp (st : EngineState) : Op → EngineState
  | Op.record ts a fb img => (recordFeedback st ts a fb img).1
  | Op.insights => (runInsightsQuery st).1
  | Op.stats => (runStatsQuery st).1

/-- Run a sequence of engine calls. -/
def runOps (st : EngineState) (ops : List Op) : EngineState :=
  ops.foldl applyOp st

/-- Run a sequence of `record_feedback` calls, each given as
(timestamp, analysis result, user feedback, image path). -/
def runRecordInputs (st : EngineState)
    (inputs : List (String × AnalysisResult × String × Option String)) : EngineState :=
  inputs.foldl (fun s i => (recordFeedback s i.1 i.2.1 i.2.2.1 i.2.2.2).1) st

/-! ## Serialisation round-trip lemmas -/

theorem decodeStrings_map (xs : List String) :
    decodeStrings (xs.map JValue.str) = some xs := by
  induction xs with
  | nil => rfl
  | cons x xs ih => simp [decodeStrings, ih]

theorem decodeDataCompleteness_encode (dc : DataCompleteness) :
    decodeDataCompleteness (encodeDataCompleteness dc) = some dc := by
  obtain ⟨cs⟩ := dc
  cases cs <;> rfl

theorem decodeAnalysisResult_encode (a : AnalysisResult) :
    decodeAnalysisResult (encodeAnalysisResult a) = some a := by
  obtain ⟨conf, dc, susp⟩ := a
  cases conf <;> cases dc <;> cases susp <;>
    simp [encodeAnalysisResult, decodeAnalysisResult, jLookup, List.find?,
      decodeDataCompleteness_encode, decodeStrings_map]

theorem decodeFeedbackRecord_encode (r : FeedbackRecord) :
    decodeFeedbackRecord (encodeFeedbackRecord r) = some r := by
  obtain ⟨ts, fb, a, img, notes⟩ := r
  cases img <;>
    simp [encodeFeedbackRecord, decodeFeedbackRecord, jLookup, List.find?,
      decodeAnalysisResult_encode]

theorem decodeRecordList_encode (rs : List FeedbackRecord) :
    decodeRecordList (rs.map encodeFeedbackRecord) = some rs := by
  induction rs with
  | nil => rfl
  | cons r rs ih => simp [decodeRecordList, decodeFeedbackRecord_encode, ih]

theorem decodeRecords_encodeRecords (rs : List FeedbackRecord) :
    decodeRecords (encodeRecords rs) = some rs := by
  simp [decodeRecords, encodeRecords, decodeRecordList_encode]

/-! ## Tally and stable-sort lemmas -/

theorem insertByCountDesc_head? (p : String × Nat) (l : List (String × Nat)) :
    (insertByCountDesc p l).head? = some p ∨ (insertByCountDesc p l).head? = l.head? := by
  cases l with
  | nil => left; rfl
  | cons q qs =>
    by_cases h : q.2 > p.2
    · right; simp [insertByCountDesc, h]
    · left; simp [insertByCountDesc, h]

theorem chain'_insertByCountDesc (p : String × Nat) (l : List (String × Nat))
    (h : List.Chain' (fun a b => b.2 ≤ a.2) l) :
    List.Chain' (fun a b => b.2 ≤ a.2) (insertByCountDesc p l) := by
  induction l with
  | nil => simp [insertByCountDesc]
  | cons q qs ih =>
    rw [List.chain'_cons'] at h
    by_cases hq : q.2 > p.2
    · show List.Chain' _ (if q.2 > p.2 then q :: insertByCountDesc p qs else p :: q :: qs)
      rw [if_pos hq, List.chain'_cons']
      refine ⟨?_, ih h.2⟩
      intro y hy
      rcases insertByCountDesc_head? p qs with hh | hh
      · rw [hh] at hy
        simp only [Option.mem_def, Option.some.injEq] at hy
        subst hy
        exact le_of_lt hq
      · rw [hh] at hy
        exact h.1 y hy
    · show List.Chain' _ (if q.2 > p.2 then q :: insertByCountDesc p qs else p :: q :: qs)
      rw [if_neg hq, List.chain'_cons]
      exact ⟨le_of_not_lt hq, List.chain'_cons'.mpr h⟩

theorem chain'_sortByCountDesc (l : List (String × Nat)) :
    List.Chain' (fun a b => b.2 ≤ a.2) (sortByCountDesc l) := by
  induction l with
  | nil => simp [sortByCountDesc]
  | cons p ps ih => exact chain'_insertByCountDesc p _ ih

theorem mem_insertByCountDesc (p q : String × Nat) (l : List (String × Nat))
    (h : q ∈ insertByCountDesc p l) : q = p ∨ q ∈ l := by
  induction l with
  | nil => exact Or.inl (List.mem_singleton.mp h)
  | cons r rs ih =>
    simp only [insertByCountDesc] at h
    by_cases hr : r.2 > p.2
    · rw [if_pos hr] at h
      rcases List.mem_cons.mp h with h | h
      · right; exact List.mem_cons.mpr (Or.inl h)
      · rcases ih h with h | h
        · left; exact h
        · right; exact List.mem_cons.mpr (Or.inr h)
    · rw [if_neg hr] at h
      rcases List.mem_cons.mp h with h | h
      · left; exact h
      · right; exact h

theorem mem_sortByCountDesc (q : String × Nat) (l : List (String × Nat))
    (h : q ∈ sortByCountDesc l) : q ∈ l := by
  induction l with
  | nil => exact absurd h (List.not_mem_nil q)
  | cons p ps ih =>
    rcases mem_insertByCountDesc p q _ h with h | h
    · simp [h]
    · exact List.mem_cons.mpr (Or.inr (ih h))

theorem mem_tallyCounts_count (ps : List String) (q : String × Nat)
    (h : q ∈ tallyCounts ps) : q.2 = ps.count q.1 := by
  simp only [tallyCounts, List.mem_map] at h
  obtain ⟨s, _, rfl⟩ := h
  rfl

theorem chain'_count_of_chain'_snd (ps : List String) (l : List (String × Nat))
    (hmem : ∀ q ∈ l, q.2 = ps.count q.1)
    (h : List.Chain' (fun a b => b.2 ≤ a.2) l) :
    List.Chain' (fun a b => ps.count b.1 ≤ ps.count a.1) l := by
  induction l with
  | nil => simp
  | cons q qs ih =>
    rw [List.chain'_cons'] at h ⊢
    refine ⟨?_, ih (fun r hr => hmem r (List.mem_cons.mpr (Or.inr hr))) h.2⟩
    intro y hy
    have hyl : y ∈ qs := List.mem_of_mem_head? hy
    have h1 := hmem q (List.mem_cons.mpr (Or.inl rfl))
    have h2 := hmem y (List.mem_cons.mpr (Or.inr hyl))
    rw [← h1, ← h2]
    exact h.1 y hy

theorem insertByCountDesc_of_snd_eq (p : String × Nat) (l : List (String × Nat)) (c : Nat)
    (hl : ∀ q ∈ l, q.2 = c) (hp : p.2 = c) :
    insertByCountDesc p l = p :: l := by
  cases l with
  | nil => rfl
  | cons q qs =>
    have hq : q.2 = c := hl q (List.mem_cons.mpr (Or.inl rfl))
    show (if q.2 > p.2 then q :: insertByCountDesc p qs else p :: q :: qs) = _
    rw [if_neg]
    rw [hq, hp]
    exact lt_irrefl c

theorem sortByCountDesc_of_snd_eq (l : List (String × Nat)) (c : Nat)
    (hl : ∀ q ∈ l, q.2 = c) :
    sortByCountDesc l = l := by
  induction l with
  | nil => rfl
  | cons p ps ih =>
    show insertByCountDesc p (sortByCountDesc ps) = _
    have hps : ∀ q ∈ ps, q.2 = c := fun q hq => hl q (List.mem_cons.mpr (Or.inr hq))
    rw [ih hps]
    exact insertByCountDesc_of_snd_eq p ps c hps (hl p (List.mem_cons.mpr (Or.inl rfl)))

theorem distinctAux_of_nodup (ps : List String) (seen : List String)
    (h : ∀ s ∈ ps, s ∉ seen) (hnd : ps.Nodup) :
    distinctAux seen ps = ps := by
  induction ps generalizing seen with
  | nil => rfl
  | cons s rest ih =>
    have hs : s ∉ seen := h s (List.mem_cons.mpr (Or.inl rfl))
    rw [List.nodup_cons] at hnd
    show (if s ∈ seen then distinctAux seen rest else s :: distinctAux (s :: seen) rest) = _
    rw [if_neg hs]
    congr 1
    refine ih (s :: seen) ?_ hnd.2
    intro x hx hmem
    rcases List.mem_cons.mp hmem with rfl | hxseen
    · exact hnd.1 hx
    · exact h x (List.mem_cons.mpr (Or.inr hx)) hxseen

theorem tallyCounts_of_nodup (ps : List String) (hnd : ps.Nodup) :
    tallyCounts ps = ps.map (fun s => (s, 1)) := by
  unfold tallyCounts
  rw [distinctAux_of_nodup ps [] (by simp) hnd]
  apply List.map_congr_left
  intro s hs
  simp [List.count_eq_one_of_mem hnd hs]

theorem mostCommonThree_of_nodup (ps : List String) (hnd : ps.Nodup) :
    mostCommonThree ps = ps.take 3 := by
  have hsnd : ∀ q ∈ (ps.map (fun s => (s, 1)) : List (String × Nat)), q.2 = 1 := by
    intro q hq
    simp only [List.mem_map] at hq
    obtain ⟨s, _, hq⟩ := hq
    rw [← hq]
  unfold mostCommonThree
  rw [tallyCounts_of_nodup ps hnd, sortByCountDesc_of_snd_eq _ 1 hsnd, List.map_take,
    List.map_map, show (Prod.fst ∘ fun s : String => (s, 1)) = fun s => s from rfl,
    List.map_id']

/-! ## Engine lemmas -/

theorem getLearningInsights_total (data : List FeedbackRecord) :
    (getLearningInsights data).total_feedback = data.length := by
  by_cases h : data = []
  · subst h; rfl
  · simp [getLearningInsights, h]

theorem loadFeedbackData_save (st : EngineState) :
    loadFeedbackData (saveFeedbackData st).store = st.feedback_data := by
  simp [saveFeedbackData, loadFeedbackData, decodeRecords_encodeRecords]

theorem runRecordInputs_reload (inputs : List (String × AnalysisResult × String × Option String))
    (st : EngineState) (h : loadFeedbackData st.store = st.feedback_data) :
    loadFeedbackData (runRecordInputs st inputs).store
      = (runRecordInputs st inputs).feedback_data := by
  induction inputs generalizing st with
  | nil => exact h
  | cons i rest ih =>
    exact ih ((recordFeedback st i.1 i.2.1 i.2.2.1 i.2.2.2).1) (loadFeedbackData_save _)

theorem runRecordInputs_length (inputs : List (String × AnalysisResult × String × Option String))
    (st : EngineState) :
    (runRecordInputs st inputs).feedback_data.length
      = st.feedback_data.length + inputs.length := by
  induction inputs generalizing st with
  | nil => rfl
  | cons i rest ih =>
    show (runRecordInputs ((recordFeedback st i.1 i.2.1 i.2.2.1 i.2.2.2).1) rest).feedback_data.length = _
    rw [ih]
    simp only [recordFeedback, saveFeedbackData, List.length_append, List.length_cons,
      List.length_nil]
    omega

/-- A feedback record with the given feedback value and an otherwise empty
analysis snapshot, used for concrete test inputs. -/
def plainRecord (fb : String) : FeedbackRecord :=
  ⟨"2024-01-01T00:00:00", fb, ⟨none, none, none⟩, none, ""⟩

/-! ## The claims -/

/-- C1, counterexample: on the empty ledger the early return of
`get_learning_insights` yields an EMPTY `improvement_suggestions` list, not
the single monitoring suggestion the claim states. -/
theorem c1_counterexample :
    ¬ ((getLearningInsights []).total_feedback = 0
      ∧ (getLearningInsights []).accuracy_rate = 0
      ∧ (getLearningInsights []).common_errors = []
      ∧ (getLearningInsights []).improvement_suggestions = [monitoringSuggestion]) := by
  intro h
  have h4 := h.2.2.2
  rw [show (getLearningInsights []).improvement_suggestions = [] from rfl] at h4
  exact List.cons_ne_nil _ _ h4.symm

/-- C1, amended: on the empty ledger `get_learning_insights` returns
`total_feedback = 0`, `accuracy_rate = 0`, empty `common_errors` and an
EMPTY `improvement_suggestions` list (and no `recent_feedback` entry). -/
theorem c1_empty_insights :
    getLearningInsights []
      = { total_feedback := 0, accuracy_rate := 0, common_errors := [],
          improvement_suggestions := [], recent_feedback := none } := rfl

/-- The C2 counterexample record: feedback `incorrect`, no
`data_completeness` entry at all, a non-empty `suspicious_elements` list. -/
def c2Record : FeedbackRecord :=
  ⟨"2024-01-01T00:00:00", "incorrect", ⟨none, none, some ["odd-texture"]⟩, none,
   "부정확한 분석. 모델 파라미터 조정 필요."⟩

/-- C2, counterexample: for an incorrect record with NO stored completeness
score the claim says the completeness-overestimated label is not emitted;
the code defaults the missing score to `1.0 > 0.8` and emits it. -/
theorem c2_counterexample :
    completenessOverestimatedLabel ∈ analyzeCommonErrors [c2Record] := by
  norm_num [analyzeCommonErrors, mostCommonThree, tallyCounts, distinctAux, sortByCountDesc,
    insertByCountDesc, recordErrorPatterns, c2Record, completenessOverestimatedLabel,
    highConfidenceWrongLabel, missedSuspiciousLabel]

/-- C2, amended: the completeness-overestimated label is emitted for a record
exactly when its completeness score read with default `1.0` (missing
`data_completeness` or missing `completeness_score` both read as `1.0`)
is strictly greater than `0.8`; in particular it IS emitted when the score
is missing. -/
theorem c2_completeness_label_iff (r : FeedbackRecord) :
    completenessOverestimatedLabel ∈ recordErrorPatterns r
      ↔ (r.analysis_result.data_completeness.getD ⟨none⟩).completeness_score.getD 1
          > (0.8 : ℚ) := by
  unfold recordErrorPatterns
  by_cases h1 : r.analysis_result.confidence_score.getD 0 > (0.8 : ℚ) <;>
  by_cases h2 : (r.analysis_result.data_completeness.getD ⟨none⟩).completeness_score.getD 1
      > (0.8 : ℚ) <;>
  by_cases h3 : r.analysis_result.suspicious_elements.getD [] = [] <;>
    simp [h1, h2, h3, completenessOverestimatedLabel, highConfidenceWrongLabel,
      missedSuspiciousLabel]

/-- C3: starting from a fresh ledger over an absent file, after any sequence
of `record_feedback` calls a newly constructed engine over the same backing
store holds the same records (hence equal field values), their number is the
number of calls, and `get_learning_insights` on the reconstructed engine
reports that number as `total_feedback`. -/
theorem c3_persistence_roundtrip
    (inputs : List (String × AnalysisResult × String × Option String)) :
    (initEngine (runRecordInputs (initEngine Store.absent) inputs).store).feedback_data
        = (runRecordInputs (initEngine Store.absent) inputs).feedback_data
      ∧ (runRecordInputs (initEngine Store.absent) inputs).feedback_data.length = inputs.length
      ∧ (getLearningInsights
            (initEngine (runRecordInputs (initEngine Store.absent) inputs).store).feedback_data).total_feedback
          = inputs.length := by
  have h1 : loadFeedbackData (runRecordInputs (initEngine Store.absent) inputs).store
      = (runRecordInputs (initEngine Store.absent) inputs).feedback_data :=
    runRecordInputs_reload inputs (initEngine Store.absent) rfl
  have h2 : (runRecordInputs (initEngine Store.absent) inputs).feedback_data.length
      = inputs.length := by
    rw [runRecordInputs_length]
    show ([] : List FeedbackRecord).length + inputs.length = inputs.length
    simp
  refine ⟨h1, h2, ?_⟩
  rw [getLearningInsights_total]
  show (loadFeedbackData (runRecordInputs (initEngine Store.absent) inputs).store).length = _
  rw [h1, h2]

/-- C4: on a non-empty ledger the accuracy rate is the number of records
whose feedback is exactly `"correct"` divided by the total record count;
records with any other feedback value count only in the denominator. -/
theorem c4_accuracy_rate (data : List FeedbackRecord) (h : data ≠ []) :
    (getLearningInsights data).accuracy_rate
      = (data.countP (fun r => r.user_feedback = "correct") : ℚ) / (data.length : ℚ) := by
  simp only [getLearningInsights, if_neg h]
  rw [List.countP_eq_length_filter]
  have hpos : data.length > 0 := List.length_pos.mpr h
  rw [if_pos hpos]

/-- The spec's accuracy example: feedback values correct, correct, incorrect. -/
def c4Data : List FeedbackRecord :=
  [plainRecord "correct", plainRecord "correct", plainRecord "incorrect"]

/-- Witness for C4 at the spec's three-record example: the rate is the
claimed quotient, whose value is 2/3. -/
theorem c4_accuracy_rate_witness :
    c4Data ≠ []
      ∧ (getLearningInsights c4Data).accuracy_rate
        = (c4Data.countP (fun r => r.user_feedback = "correct") : ℚ) / (c4Data.length : ℚ)
      ∧ (c4Data.countP (fun r => r.user_feedback = "correct") : ℚ) / (c4Data.length : ℚ)
        = 2 / 3 :=
  ⟨by decide, c4_accuracy_rate c4Data (by decide),
   by norm_num [c4Data, plainRecord, List.countP, List.countP.go,
     show decide ("incorrect" = "correct") = false from rfl]⟩

/-- C5: `common_errors` holds at most 3 labels, in descending frequency of
the label occurrences collected from the incorrect records (stable sort, so
ties stay in first-encounter order), and when the collected labels are
pairwise distinct the top-3 are exactly the first three in encounter
order. -/
theorem c5_common_errors (recs : List FeedbackRecord) (ps : List String) :
    ((analyzeCommonErrors recs).length ≤ 3
      ∧ List.Chain'
          (fun a b => (recs.flatMap recordErrorPatterns).count b
            ≤ (recs.flatMap recordErrorPatterns).count a)
          (analyzeCommonErrors recs))
    ∧ (ps.Nodup → mostCommonThree ps = ps.take 3) := by
  refine ⟨⟨?_, ?_⟩, mostCommonThree_of_nodup ps⟩
  · show (((sortByCountDesc (tallyCounts (recs.flatMap recordErrorPatterns))).take 3).map Prod.fst).length ≤ 3
    rw [List.length_map, List.length_take]
    exact min_le_left 3 _
  · show List.Chain' _
      (((sortByCountDesc (tallyCounts (recs.flatMap recordErrorPatterns))).take 3).map Prod.fst)
    rw [List.chain'_map]
    apply List.Chain'.take
    apply chain'_count_of_chain'_snd
    · intro q hq
      exact mem_tallyCounts_count _ q (mem_sortByCountDesc q _ hq)
    · exact chain'_sortByCountDesc _

/-- The spec's five distinct error labels. -/
def fiveLabels : List String := ["e1", "e2", "e3", "e4", "e5"]

/-- Witness for C5 at five distinct labels occurring once each: exactly the
first three, in first-encounter order. -/
theorem c5_common_errors_witness :
    fiveLabels.Nodup ∧ mostCommonThree fiveLabels = fiveLabels.take 3 :=
  ⟨by decide, (c5_common_errors [] fiveLabels).2 (by decide)⟩

/-- The fallback shape of `_generate_improvement_suggestions` is never the
empty list. -/
theorem ifEmpty_ne_nil (s : List String) (x : String) : (if s = [] then [x] else s) ≠ [] := by
  by_cases h : s = []
  · rw [if_pos h]; exact List.cons_ne_nil _ _
  · rw [if_neg h]; exact h

/-- C6: suggestion derivation is never empty, depends on `common_errors`
only through which labels are present (so it is invariant under reordering
or duplication of the label list), and returns exactly the monitoring
suggestion when none of the four fixed conditions fires. -/
theorem c6_suggestions (rate : ℚ) (errs errs' : List String) :
    generateImprovementSuggestions rate errs ≠ []
      ∧ ((∀ s, s ∈ errs ↔ s ∈ errs')
          → generateImprovementSuggestions rate errs
            = generateImprovementSuggestions rate errs')
      ∧ (¬ rate < (0.7 : ℚ)
          → highConfidenceWrongLabel ∉ errs
          → completenessOverestimatedLabel ∉ errs
          → missedSuspiciousLabel ∉ errs
          → generateImprovementSuggestions rate errs = [monitoringSuggestion]) := by
  refine ⟨?_, ?_, ?_⟩
  · exact ifEmpty_ne_nil _ _
  · intro h
    simp only [generateImprovementSuggestions, h]
  · intro h0 h1 h2 h3
    simp only [generateImprovementSuggestions, if_neg h0, if_neg h1, if_neg h2, if_neg h3]
    simp

/-- Witness for C6: with accuracy 1 and no labels no condition fires, so the
suggestions are exactly the monitoring suggestion. -/
theorem c6_suggestions_witness :
    (¬ (1 : ℚ) < (0.7 : ℚ)
      ∧ highConfidenceWrongLabel ∉ ([] : List String)
      ∧ completenessOverestimatedLabel ∉ ([] : List String)
      ∧ missedSuspiciousLabel ∉ ([] : List String))
    ∧ generateImprovementSuggestions 1 [] = [monitoringSuggestion] :=
  ⟨⟨by norm_num, by simp, by simp, by simp⟩,
   (c6_suggestions 1 [] []).2.2 (by norm_num) (by simp) (by simp) (by simp)⟩

/-- The C7 record: incorrect feedback, confidence 0.9, completeness 0.5,
empty suspicious-element list. -/
def c7Record : FeedbackRecord :=
  ⟨"2024-01-01T00:00:00", "incorrect", ⟨some 0.9, some ⟨some 0.5⟩, some []⟩, none,
   "부정확한 분석. 모델 파라미터 조정 필요."⟩

/-- C7: that record contributes exactly the high-confidence-wrong and
missed-suspicious-elements labels, and the completeness-overestimated label
is absent from the resulting `common_errors`. -/
theorem c7_error_labels :
    recordErrorPatterns c7Record = [highConfidenceWrongLabel, missedSuspiciousLabel]
      ∧ analyzeCommonErrors [c7Record] = [highConfidenceWrongLabel, missedSuspiciousLabel]
      ∧ completenessOverestimatedLabel ∉ analyzeCommonErrors [c7Record] := by
  have h1 : ((0.9 : ℚ) > 0.8) := by norm_num
  have h2 : ¬ ((0.5 : ℚ) > 0.8) := by norm_num
  have hrec : recordErrorPatterns c7Record
      = [highConfidenceWrongLabel, missedSuspiciousLabel] := by
    simp only [recordErrorPatterns, c7Record, Option.getD_some, h1, h2, if_true, if_false,
      if_pos, if_neg]
    decide
  have hana : analyzeCommonErrors [c7Record]
      = [highConfidenceWrongLabel, missedSuspiciousLabel] := by
    simp only [analyzeCommonErrors, List.flatMap_cons, List.flatMap_nil, hrec]
    decide
  refine ⟨hrec, hana, ?_⟩
  rw [hana]
  decide

/-- C8: on a non-empty ledger `recent_feedback` is the ledger's last 5
records in insertion order (all of them when fewer than 5), i.e. the list
with all but the last 5 dropped. -/
theorem c8_recent_window (data : List FeedbackRecord) (h : data ≠ []) :
    (getLearningInsights data).recent_feedback
      = some (data.drop (data.length - 5)) := by
  simp only [getLearningInsights, if_neg h]
  by_cases h5 : data.length ≥ 5
  · rw [if_pos h5]
  · rw [if_neg h5]
    have h0 : data.length - 5 = 0 := by omega
    rw [h0, List.drop_zero]

/-- A seven-record ledger for the C8 witness. -/
def c8Data : List FeedbackRecord :=
  [plainRecord "correct", plainRecord "correct", plainRecord "correct",
   plainRecord "incorrect", plainRecord "uncertain", plainRecord "correct",
   plainRecord "incorrect"]

/-- Witness for C8 on seven records: the recent window is the last five. -/
theorem c8_recent_window_witness :
    c8Data ≠ []
      ∧ (getLearningInsights c8Data).recent_feedback
        = some (c8Data.drop (c8Data.length - 5)) :=
  ⟨by decide, c8_recent_window c8Data (by decide)⟩

/-- C9: construction fails open: an absent backing file and a file whose
load raises (caught by the bare `except`) both give an empty ledger; the
constructor is a total function, so no error reaches the caller. -/
theorem c9_fails_open :
    (initEngine Store.absent).feedback_data = []
      ∧ (initEngine Store.corrupt).feedback_data = []
      ∧ loadFeedbackData Store.absent = []
      ∧ loadFeedbackData Store.corrupt = [] :=
  ⟨rfl, rfl, rfl, rfl⟩

/-- C10: the two query operations leave the engine state (records and
backing store) unchanged, so any interleaving of queries between
`record_feedback` calls produces the same final state as the
`record_feedback` calls alone. -/
theorem c10_queries_read_only (st : EngineState) (ops : List Op) :
    (runInsightsQuery st).1 = st
      ∧ (runStatsQuery st).1 = st
      ∧ runOps st ops = runOps st (ops.filter Op.isRecord) := by
  refine ⟨rfl, rfl, ?_⟩
  induction ops generalizing st with
  | nil => rfl
  | cons op rest ih =>
    cases op with
    | record ts a fb img =>
      show runOps (applyOp st (Op.record ts a fb img)) rest
        = runOps st (List.filter Op.isRecord (Op.record ts a fb img :: rest))
      rw [List.filter_cons_of_pos rfl]
      exact ih _
    | insights =>
      show runOps st rest = runOps st (List.filter Op.isRecord (Op.insights :: rest))
      rw [List.filter_cons_of_neg (by simp [Op.isRecord])]
      exact ih st
    | stats =>
      show runOps st rest = runOps st (List.filter Op.isRecord (Op.stats :: rest))
      rw [List.filter_cons_of_neg (by simp [Op.isRecord])]
      exact ih st

end Reflexion
